import Mathlib

/-!
Verification of the document-processing pipeline of the repository
(azure_ai_service): splitter, analysis job poller, result extractor,
bundler and chunker.  Each definition is a shallow embedding of the
corresponding Python function, with the source file and line range given
in its doc comment.  Machine strings that algorithms inspect character by
character are modelled as List Char (Python str compares code points
lexicographically, as Lean Char does); strings that are only carried
around are modelled as String.
-/

namespace PdfUtils

/-- Field names declared on the active pydantic model SplitPDF
(app/doc_intel/utils/pdf_utils.py lines 10-21).  Every field is
annotated without a default, so pydantic treats each one as required. -/
def splitPDFModelFields : List String :=
  ["pdf_bytes", "start_page_id", "end_page_id", "target_path",
   "n_pages_in_source", "n_pages_in_target", "split_id", "status"]

/-- Keyword arguments passed at the SplitPDF construction site inside
get_split_pdfs (pdf_utils.py lines 135-144). -/
def splitPDFCallKwargs : List String :=
  ["source_path", "start_page_id", "end_page_id", "target_path",
   "n_pages_in_source", "n_pages_in_target", "split_id", "status"]

/-- Pydantic raises ValidationError when constructing a model whose
required field is missing from the supplied keyword arguments. -/
def pydanticMissingRequired (required provided : List String) : Bool :=
  !(required.all (fun f => provided.contains f))

/-- Errors get_split_pdfs can raise. -/
inductive SplitError where
  | invalidNPagesPerSplit
  | validationError
deriving DecidableEq

/-- Metadata of a database File row used by get_split_pdfs. -/
structure File where
  name : String
  n_pages : Nat
  process_type : String

/-- One split unit as built by the loop body of get_split_pdfs. -/
structure SplitUnit where
  source_path : String
  start_page_id : Nat
  end_page_id : Nat
  target_path : String
  n_pages_in_source : Nat
  n_pages_in_target : Nat
  split_id : Nat
  status : String
deriving DecidableEq

/-- The loop body of get_split_pdfs (pdf_utils.py lines 123-145): the
page-range arithmetic for split number split_id, followed by the pydantic
construction of SplitPDF.  The construction raises ValidationError
because the keyword set at the call site omits the required field
pdf_bytes of the active model. -/
def mkSplitPDF (done_dir split_dir : String) (file : File) (b : Nat)
    (split_id : Nat) : Except SplitError SplitUnit :=
  let start_page := split_id * b + 1
  let end_page := min ((split_id + 1) * b) file.n_pages
  let status :=
    if file.process_type = "text" then "wait-for-pymupdf4llm" else "wait-for-di"
  if pydanticMissingRequired splitPDFModelFields splitPDFCallKwargs then
    Except.error SplitError.validationError
  else
    Except.ok
      { source_path := done_dir ++ "/" ++ file.name
        start_page_id := start_page
        end_page_id := end_page
        target_path := split_dir ++ "/" ++ toString split_id ++ ".pdf"
        n_pages_in_source := file.n_pages
        n_pages_in_target := end_page - start_page + 1
        split_id := split_id
        status := status }

/-- Embedding of get_split_pdfs (pdf_utils.py lines 93-147).  The budget
n_pages_per_split is a Python int, so it may be non-positive; the guard
raises ValueError for a non-positive budget, a zero-page file yields no
splits, and otherwise the number of splits is computed by divmod with a
remainder bump before the construction loop runs. -/
def get_split_pdfs (done_dir split_dir : String) (file : File)
    (n_pages_per_split : Int) : Except SplitError (List SplitUnit) :=
  if n_pages_per_split ≤ 0 then Except.error SplitError.invalidNPagesPerSplit
  else
    if file.n_pages = 0 then Except.ok []
    else
      let b := n_pages_per_split.toNat
      let n_splits := file.n_pages / b + (if file.n_pages % b > 0 then 1 else 0)
      (List.range n_splits).mapM (mkSplitPDF done_dir split_dir file b)

end PdfUtils

/-- C1: the claim reads get_split_pdfs as returning ceil(p/b) contiguous
split units.  On the code as written this is unreachable for any p > 0:
the active SplitPDF pydantic model requires a pdf_bytes field and has no
source_path field, while the construction site passes source_path and no
pdf_bytes, so the first loop iteration raises a pydantic ValidationError.
This theorem evaluates the embedded code at the failing input p = 1,
b = 1: the call errors instead of producing one unit, and the error is
exactly the missing required field pdf_bytes. -/
theorem C1_get_split_pdfs_raises_validation_error :
    PdfUtils.get_split_pdfs "done" "split" ⟨"f.pdf", 1, "text"⟩ 1 =
      Except.error PdfUtils.SplitError.validationError ∧
    PdfUtils.pydanticMissingRequired PdfUtils.splitPDFModelFields
      PdfUtils.splitPDFCallKwargs = true ∧
    ("pdf_bytes" ∈ PdfUtils.splitPDFModelFields ∧
     "pdf_bytes" ∉ PdfUtils.splitPDFCallKwargs) := by
  refine ⟨rfl, by decide, by decide, by decide⟩

/-- C8: splitting a zero-page file returns the empty list of units and
raises nothing, and a non-positive page budget raises the configuration
ValueError immediately, before any unit is produced. -/
theorem C8_zero_pages_and_invalid_budget (done_dir split_dir : String)
    (file : PdfUtils.File) (n_pages_per_split : Int) :
    (n_pages_per_split ≤ 0 →
      PdfUtils.get_split_pdfs done_dir split_dir file n_pages_per_split =
        Except.error PdfUtils.SplitError.invalidNPagesPerSplit) ∧
    (file.n_pages = 0 → 0 < n_pages_per_split →
      PdfUtils.get_split_pdfs done_dir split_dir file n_pages_per_split =
        Except.ok []) := by
  constructor
  · intro h
    simp [PdfUtils.get_split_pdfs, h]
  · intro h0 hpos
    have : ¬ (n_pages_per_split ≤ 0) := by omega
    simp [PdfUtils.get_split_pdfs, this, h0]

/-- Witness for C8 at concrete inputs: budget 0 errors, and a zero-page
file with budget 3 yields zero units. -/
theorem C8_zero_pages_and_invalid_budget_witness :
    PdfUtils.get_split_pdfs "d" "s" ⟨"f.pdf", 5, "text"⟩ 0 =
      Except.error PdfUtils.SplitError.invalidNPagesPerSplit ∧
    PdfUtils.get_split_pdfs "d" "s" ⟨"f.pdf", 0, "text"⟩ 3 =
      Except.ok [] := by
  constructor
  · exact (C8_zero_pages_and_invalid_budget "d" "s" ⟨"f.pdf", 5, "text"⟩ 0).1
      (by decide)
  · exact (C8_zero_pages_and_invalid_budget "d" "s" ⟨"f.pdf", 0, "text"⟩ 3).2
      rfl (by decide)

namespace PageSplit

/-- Leftmost, non-overlapping split of a character sequence by a
non-empty separator, the semantics of Python str.split with an explicit
separator.  The fuel argument is structural and one unit larger than the
remaining content, which every step shrinks, so the fallback first
equation is never reached for the uses below. -/
def pythonSplitAux (sep : List Char) : Nat → List Char → List Char → List (List Char)
  | 0, rest, acc => [acc.reverse ++ rest]
  | fuel + 1, content, acc =>
    match content with
    | [] => [acc.reverse]
    | c :: rest =>
      if sep.isPrefixOf (c :: rest) then
        acc.reverse :: pythonSplitAux sep fuel (List.drop sep.length (c :: rest)) []
      else
        pythonSplitAux sep fuel rest (c :: acc)

/-- Python str.split with a non-empty separator. -/
def pythonSplit (sep content : List Char) : List (List Char) :=
  pythonSplitAux sep (content.length + 1) content []

/-- The explicit page-break marker used by PagesSplitter
(src/doc2rag/page_split.py line 255). -/
def pageBreakMarker : List Char := "<!-- PageBreak -->".data

/-- Error raised on a page-count mismatch (page_split.py lines 23-24). -/
inductive PageSplitError where
  | pageNumberNotMatch
deriving DecidableEq

/-- Embedding of PagesSplitter._extract_page_contents (page_split.py
lines 250-261): split the analysis result body by the page-break marker
and raise PageNumberNotMatchError unless the segment count equals the
split file's recorded page count. -/
def extract_page_contents (content : List Char) (n_pages : Nat) :
    Except PageSplitError (List (List Char)) :=
  let page_contents := pythonSplit pageBreakMarker content
  if page_contents.length ≠ n_pages then
    Except.error PageSplitError.pageNumberNotMatch
  else
    Except.ok page_contents

/-- Metadata of a SplitFile row used by page numbering and submission
(db_utils models; fields split_id, start_page_number, n_pages). -/
structure SplitFileRec where
  split_id : Nat
  start_page_number : Nat
  n_pages : Nat

/-- Embedding of get_page_number (page_split.py lines 27-35): absolute
page number of the 1-based page_id_in_split_file within its split. -/
def get_page_number (split_file : SplitFileRec) (page_id_in_split_file : Nat) : Nat :=
  split_file.start_page_number + page_id_in_split_file - 1

/-- Embedding of get_file_path (page_split.py lines 87-100): join the
numeric components with an underscore and append the extension under the
base directory. -/
def get_file_path (base_dir : String) (components : List Nat)
    (extension : String) : String :=
  base_dir ++ "/" ++ String.intercalate "_" (components.map toString) ++ extension

/-- A Page row as created by PageProcessor.run (page_split.py
lines 311-318). -/
structure PageRow where
  page_number : Nat
  page_id_in_split_file : Nat
  status : String
  split_file_id : Nat
deriving DecidableEq

/-- One iteration result of PageProcessor.run: the markdown file written
and the Page row appended. -/
structure SavedPage where
  path : String
  content : List Char
  row : PageRow
deriving DecidableEq

/-- Embedding of PageProcessor.run (page_split.py lines 301-321):
enumerate the extracted page contents from 1, compute each absolute page
number, save the content under the path keyed by that number, and append
a Page row with status raw-md-extracted. -/
def page_processor_run (split_file : SplitFileRec) (split_file_id : Nat)
    (raw_md_dir : String) (page_content_list : List (List Char)) : List SavedPage :=
  (List.enumFrom 1 page_content_list).map (fun p =>
    let page_number := get_page_number split_file p.1
    { path := get_file_path raw_md_dir [page_number] ".md"
      content := p.2
      row := { page_number := page_number
               page_id_in_split_file := p.1
               status := "raw-md-extracted"
               split_file_id := split_file_id } })

end PageSplit

/-- C2: page extraction segments the raw result body by the page-break
marker; it raises the page-count-mismatch error exactly when the number
of segments differs from the recorded page count, and any returned list
has length equal to that page count, with the segments returned as
produced by the split (no truncation or padding). -/
theorem C2_extract_page_contents_length (content : List Char) (n_pages : Nat) :
    ((∃ e, PageSplit.extract_page_contents content n_pages = Except.error e) ↔
      (PageSplit.pythonSplit PageSplit.pageBreakMarker content).length ≠ n_pages) ∧
    (∀ l, PageSplit.extract_page_contents content n_pages = Except.ok l →
      l.length = n_pages ∧
      l = PageSplit.pythonSplit PageSplit.pageBreakMarker content) := by
  constructor
  · constructor
    · rintro ⟨e, he⟩ hlen
      simp [PageSplit.extract_page_contents, hlen] at he
    · intro hlen
      exact ⟨PageSplit.PageSplitError.pageNumberNotMatch,
        by simp [PageSplit.extract_page_contents, hlen]⟩
  · intro l hl
    by_cases hlen :
        (PageSplit.pythonSplit PageSplit.pageBreakMarker content).length = n_pages
    · simp [PageSplit.extract_page_contents, hlen] at hl
      subst hl
      exact ⟨hlen, rfl⟩
    · simp [PageSplit.extract_page_contents, hlen] at hl

/-- Witness for C2: a two-page body split by one marker returns the two
segments, and the same body declared as three pages errors. -/
theorem C2_extract_page_contents_length_witness :
    PageSplit.extract_page_contents ("A<!-- PageBreak -->B".data) 2 =
      Except.ok ["A".data, "B".data] ∧
    (∃ e, PageSplit.extract_page_contents ("A<!-- PageBreak -->B".data) 3 =
      Except.error e) := by
  refine ⟨rfl, ?_⟩
  exact (C2_extract_page_contents_length ("A<!-- PageBreak -->B".data) 3).1.2
    (by decide)


/-- C6: for the i-th (1-based) extracted segment, PageProcessor.run
assigns absolute page number start_page_number + i - 1, saves the
segment content at the path derived deterministically from that absolute
page number, and creates one Page row per segment carrying that page
number, the position i, and the raw-md-extracted status (the spec's
raw-extracted). -/
theorem C6_page_processor_absolute_numbering (split_file : PageSplit.SplitFileRec)
    (split_file_id : Nat) (raw_md_dir : String)
    (page_content_list : List (List Char)) (i : Nat) (h1 : 1 ≤ i)
    (h : i - 1 < (PageSplit.page_processor_run split_file split_file_id raw_md_dir
      page_content_list).length) :
    (PageSplit.page_processor_run split_file split_file_id raw_md_dir
      page_content_list).length = page_content_list.length ∧
    ((PageSplit.page_processor_run split_file split_file_id raw_md_dir
      page_content_list).get ⟨i - 1, h⟩ =
      { path := PageSplit.get_file_path raw_md_dir
          [split_file.start_page_number + i - 1] ".md"
        content := page_content_list.get ⟨i - 1, by
          simpa [PageSplit.page_processor_run] using h⟩
        row := { page_number := split_file.start_page_number + i - 1
                 page_id_in_split_file := i
                 status := "raw-md-extracted"
                 split_file_id := split_file_id } }) := by
  have hlen : (PageSplit.page_processor_run split_file split_file_id raw_md_dir
      page_content_list).length = page_content_list.length := by
    simp [PageSplit.page_processor_run]
  refine ⟨hlen, ?_⟩
  have hi : i - 1 < page_content_list.length := by
    rw [hlen] at h
    exact h
  simp only [PageSplit.page_processor_run, List.get_eq_getElem, List.getElem_map,
    List.getElem_enumFrom]
  have harith : 1 + (i - 1) = i := by omega
  simp [PageSplit.get_page_number, harith]

/-- Witness for C6: a split starting at absolute page 5 maps its second
segment to absolute page 6, with the path keyed by 6 and a
raw-md-extracted Page row at position 2. -/
theorem C6_page_processor_absolute_numbering_witness :
    (PageSplit.page_processor_run ⟨0, 5, 2⟩ 7 "dir" ["a".data, "b".data]).length = 2 ∧
    ((PageSplit.page_processor_run ⟨0, 5, 2⟩ 7 "dir" ["a".data, "b".data]).get
        ⟨1, by decide⟩ =
      { path := "dir/6.md"
        content := "b".data
        row := { page_number := 6
                 page_id_in_split_file := 2
                 status := "raw-md-extracted"
                 split_file_id := 7 } }) := by
  obtain ⟨hl, hg⟩ := C6_page_processor_absolute_numbering ⟨0, 5, 2⟩ 7 "dir"
    ["a".data, "b".data] 2 (by decide) (by decide)
  exact ⟨hl, hg⟩

namespace DocIntel

/-- Embedding of Submitter._get_pages
(app/doc_intel/preprocessing/doc_intel.py lines 144-151): the 1-based
page-range string passed to the analysis service for a split file. -/
def get_pages (split_file : PageSplit.SplitFileRec) : String :=
  if split_file.n_pages = 1 then "1" else "1-" ++ toString split_file.n_pages

/-- Observable effects of one call of Submitter._submit_single_job
(doc_intel.py lines 95-129). -/
structure SubmitEffects where
  status_writes : List String
  registered_waiting_time : Option Nat
  di_request_created : Bool
  submitted : Bool
  raised : Option String
deriving DecidableEq

/-- Embedding of Submitter._submit_single_job together with
_get_file_path_and_validate (doc_intel.py lines 95-142).  When the
source file is missing, the validator writes status failed and the
method returns without submitting.  When the source file exists, the
next statement evaluates the local name pdf_bytes, which is bound
nowhere in the method or module, so a NameError is raised before any
submission; the except handler formats split_file_name, which is only
assigned after the submission call, so a second NameError escapes the
handler and aborts the call. -/
def submit_single_job (source_file_exists : Bool) : SubmitEffects :=
  if source_file_exists = false then
    { status_writes := ["failed"]
      registered_waiting_time := none
      di_request_created := false
      submitted := false
      raised := none }
  else
    { status_writes := []
      registered_waiting_time := none
      di_request_created := false
      submitted := false
      raised := some "NameError" }

end DocIntel

/-- C10: the page range submitted for a split file is always relative to
the split sub-document: it is the string 1 when the unit has one page
and 1-n otherwise, and it depends only on the unit's page count, never
on its absolute start page. -/
theorem C10_get_pages_relative_range (split_file : PageSplit.SplitFileRec) :
    (split_file.n_pages = 1 → DocIntel.get_pages split_file = "1") ∧
    (split_file.n_pages ≠ 1 →
      DocIntel.get_pages split_file = "1-" ++ toString split_file.n_pages) ∧
    (∀ other : PageSplit.SplitFileRec, other.n_pages = split_file.n_pages →
      DocIntel.get_pages other = DocIntel.get_pages split_file) := by
  refine ⟨?_, ?_, ?_⟩
  · intro h
    simp [DocIntel.get_pages, h]
  · intro h
    simp [DocIntel.get_pages, h]
  · intro other h
    simp [DocIntel.get_pages, h]

/-- Witness for C10: two units with the same page count but different
absolute start pages get the same range string, and the one-page and
seven-page forms evaluate as claimed. -/
theorem C10_get_pages_relative_range_witness :
    DocIntel.get_pages ⟨0, 41, 1⟩ = "1" ∧
    DocIntel.get_pages ⟨3, 41, 7⟩ = "1-7" ∧
    DocIntel.get_pages ⟨3, 41, 7⟩ = DocIntel.get_pages ⟨0, 1, 7⟩ := by
  refine ⟨(C10_get_pages_relative_range ⟨0, 41, 1⟩).1 rfl, ?_, ?_⟩
  · have := (C10_get_pages_relative_range ⟨3, 41, 7⟩).2.1 (by decide)
    simpa using this
  · exact (C10_get_pages_relative_range ⟨0, 1, 7⟩).2.2 ⟨3, 41, 7⟩ rfl

/-- C5: the claim describes the submit phase as validating the source
file (mark failed and skip when missing) and otherwise submitting the
unit, registering a job with waiting_time 0 plus a timestamp, and
setting status di-processing.  The missing-file half matches the code,
but the exists half is unreachable: _submit_single_job evaluates the
unbound local pdf_bytes before submitting, and its except handler
formats the not-yet-assigned split_file_name, so a NameError escapes
with nothing submitted, nothing registered, and no status written. -/
theorem C5_submit_single_job_name_error :
    DocIntel.submit_single_job false =
      { status_writes := ["failed"]
        registered_waiting_time := none
        di_request_created := false
        submitted := false
        raised := none } ∧
    DocIntel.submit_single_job true =
      { status_writes := []
        registered_waiting_time := none
        di_request_created := false
        submitted := false
        raised := some "NameError" } ∧
    (DocIntel.submit_single_job true).registered_waiting_time ≠ some 0 ∧
    "di-processing" ∉ (DocIntel.submit_single_job true).status_writes := by
  refine ⟨rfl, rfl, by decide, by decide⟩

namespace DocIntel

/-- One registered job of the listener's registry (PollerDict,
doc_intel.py lines 26-34), reduced to the fields the polling logic
reads: the identity of the underlying split file and the accumulated
waiting time in seconds, registered as 0. -/
structure PollerEntry where
  id : Nat
  waiting_time : Nat
deriving DecidableEq

/-- One database status update performed by Listener._update_status
(doc_intel.py lines 286-298): the job's split-file status and the DI
request status (the failure reason). -/
structure RegistryWrite where
  job : Nat
  sf_status : String
  di_status : String
deriving DecidableEq

/-- Embedding of Listener._process_polling (doc_intel.py lines 241-256)
on one registry entry during sweep k.  The oracle done says whether the
remote poller reports completion at that sweep and status its terminal
status ("succeeded" or not, lines 258-274).  First component: the entry
as it remains in the registry afterwards (none when removed); second
component: the status write performed, if any.  A completed job is
handled and removed; otherwise the waiting time grows by the check
period and the job is removed with the over-max-wait-time failure write
exactly when the new waiting time exceeds the max wait time. -/
def process_polling (check_period max_wait_time k : Nat)
    (done : Nat → Nat → Bool) (status : Nat → Nat → String)
    (e : PollerEntry) : Option PollerEntry × Option RegistryWrite :=
  if done k e.id then
    (none,
     some (if status k e.id = "succeeded" then ⟨e.id, "di-success", "success"⟩
           else ⟨e.id, "di-failed", "failed"⟩))
  else
    let wt := e.waiting_time + check_period
    if max_wait_time < wt then
      (none, some ⟨e.id, "di-failed", "over-max-wait-time"⟩)
    else
      (some { e with waiting_time := wt }, none)

/-- Registry left after one sweep of listen_jobs (doc_intel.py
lines 231-233): the loop iterates over a snapshot copy of the list,
each entry is processed once, and processing an entry mutates or
removes only that entry, so the sweep acts entrywise. -/
def sweepJobs (c m k : Nat) (done : Nat → Nat → Bool) (status : Nat → Nat → String)
    (jobs : List PollerEntry) : List PollerEntry :=
  jobs.filterMap (fun e => (process_polling c m k done status e).1)

/-- Status writes performed during one sweep, in iteration order. -/
def sweepWrites (c m k : Nat) (done : Nat → Nat → Bool) (status : Nat → Nat → String)
    (jobs : List PollerEntry) : List RegistryWrite :=
  jobs.filterMap (fun e => (process_polling c m k done status e).2)

/-- Registry after t further sweeps starting at sweep index k. -/
def sweeps (c m : Nat) (done : Nat → Nat → Bool) (status : Nat → Nat → String) :
    Nat → Nat → List PollerEntry → List PollerEntry
  | 0, _, jobs => jobs
  | t + 1, k, jobs => sweeps c m done status t (k + 1) (sweepJobs c m k done status jobs)

/-- Status writes accumulated over t further sweeps starting at k. -/
def sweepsWrites (c m : Nat) (done : Nat → Nat → Bool) (status : Nat → Nat → String) :
    Nat → Nat → List PollerEntry → List RegistryWrite
  | 0, _, _ => []
  | t + 1, k, jobs =>
      sweepWrites c m k done status jobs ++
        sweepsWrites c m done status t (k + 1) (sweepJobs c m k done status jobs)

/-- Embedding of Listener.listen_jobs (doc_intel.py lines 227-239): the
while loop sweeps the registry and sleeps until the registry is empty,
then reports all jobs completed.  The fuel argument bounds how many
sweeps we unroll; the returned flag is the all-jobs-completed
notification, emitted only on the empty registry. -/
def listen_jobs (c m : Nat) (done : Nat → Nat → Bool) (status : Nat → Nat → String) :
    Nat → Nat → List PollerEntry → List RegistryWrite →
    List PollerEntry × List RegistryWrite × Bool
  | 0, _, jobs, ws => (jobs, ws, jobs.isEmpty)
  | fuel + 1, k, jobs, ws =>
    if jobs.isEmpty then (jobs, ws, true)
    else
      listen_jobs c m done status fuel (k + 1) (sweepJobs c m k done status jobs)
        (ws ++ sweepWrites c m k done status jobs)

/-- Every survivor of a sweep stems from an entry of the input registry
with the same identity, its waiting time grown by the check period and
still within the max wait time, and its remote job not yet done. -/
theorem mem_sweepJobs (c m k : Nat) (done : Nat → Nat → Bool)
    (status : Nat → Nat → String) (jobs : List PollerEntry) (e2 : PollerEntry)
    (h : e2 ∈ sweepJobs c m k done status jobs) :
    ∃ e ∈ jobs, done k e.id = false ∧ e2.id = e.id ∧
      e2.waiting_time = e.waiting_time + c ∧ e2.waiting_time ≤ m := by
  rw [sweepJobs, List.mem_filterMap] at h
  obtain ⟨e, hmem, hpp⟩ := h
  refine ⟨e, hmem, ?_⟩
  by_cases hd : done k e.id
  · simp [process_polling, hd] at hpp
  · simp only [process_polling, hd, if_false, Bool.false_eq_true] at hpp
    by_cases ht : m < e.waiting_time + c
    · simp [ht] at hpp
    · simp [ht] at hpp
      subst hpp
      simp at hd
      exact ⟨hd, rfl, rfl, by simpa using Nat.not_lt.mp ht⟩

/-- Every write produced by processing an entry carries that entry's
job identity. -/
theorem write_job_of_process_polling (c m k : Nat) (done : Nat → Nat → Bool)
    (status : Nat → Nat → String) (e : PollerEntry) (w : RegistryWrite)
    (h : (process_polling c m k done status e).2 = some w) : w.job = e.id := by
  by_cases hd : done k e.id
  · simp only [process_polling, hd, if_true] at h
    by_cases hs : status k e.id = "succeeded" <;> simp [hs] at h <;> subst h <;> rfl
  · simp only [process_polling, hd, if_false, Bool.false_eq_true] at h
    by_cases ht : m < e.waiting_time + c
    · simp [ht] at h
      subst h
      rfl
    · simp [ht] at h

/-- Every write of a sweep belongs to some entry of the registry. -/
theorem mem_sweepWrites_job (c m k : Nat) (done : Nat → Nat → Bool)
    (status : Nat → Nat → String) (jobs : List PollerEntry) (w : RegistryWrite)
    (h : w ∈ sweepWrites c m k done status jobs) : ∃ e ∈ jobs, w.job = e.id := by
  rw [sweepWrites, List.mem_filterMap] at h
  obtain ⟨e, hmem, hpp⟩ := h
  exact ⟨e, hmem, write_job_of_process_polling c m k done status e w hpp⟩

/-- When every registered job would exceed the max wait time within the
available sweeps, the poll loop drains the registry and notifies. -/
theorem listen_drains (c m : Nat) (done : Nat → Nat → Bool)
    (status : Nat → Nat → String) : ∀ (t k : Nat) (jobs : List PollerEntry)
    (ws : List RegistryWrite),
    (∀ e ∈ jobs, m + 1 ≤ e.waiting_time + (t + 1) * c) →
    (listen_jobs c m done status (t + 1) k jobs ws).1 = [] ∧
      (listen_jobs c m done status (t + 1) k jobs ws).2.2 = true := by
  intro t
  induction t with
  | zero =>
    intro k jobs ws hbound
    by_cases hnil : jobs.isEmpty
    · simp_all [listen_jobs, List.isEmpty_iff]
    · have hempty : sweepJobs c m k done status jobs = [] := by
        rw [List.eq_nil_iff_forall_not_mem]
        intro e2 h2
        obtain ⟨e, hmem, _, _, hwt, hle⟩ := mem_sweepJobs c m k done status jobs e2 h2
        have := hbound e hmem
        omega
      simp [listen_jobs, hnil, hempty]
  | succ t ih =>
    intro k jobs ws hbound
    by_cases hnil : jobs.isEmpty
    · simp_all [listen_jobs, List.isEmpty_iff]
    · rw [listen_jobs]
      simp only [hnil, if_false]
      apply ih
      intro e2 h2
      obtain ⟨e, hmem, _, _, hwt, _⟩ := mem_sweepJobs c m k done status jobs e2 h2
      have hb := hbound e hmem
      have hmul : (t + 1 + 1) * c = (t + 1) * c + c := by ring
      omega

/-- The all-jobs-completed notification is emitted only with an empty
registry. -/
theorem listen_notify_only_if_empty (c m : Nat) (done : Nat → Nat → Bool)
    (status : Nat → Nat → String) : ∀ (fuel k : Nat) (jobs : List PollerEntry)
    (ws : List RegistryWrite),
    (listen_jobs c m done status fuel k jobs ws).2.2 = true →
    (listen_jobs c m done status fuel k jobs ws).1 = [] := by
  intro fuel
  induction fuel with
  | zero =>
    intro k jobs ws h
    simp only [listen_jobs] at h ⊢
    exact List.isEmpty_iff.mp h
  | succ fuel ih =>
    intro k jobs ws h
    rw [listen_jobs] at h ⊢
    by_cases hnil : jobs.isEmpty
    · simp only [hnil, if_true]
      exact List.isEmpty_iff.mp hnil
    · simp only [hnil, if_false] at h ⊢
      exact ih _ _ _ h

/-- The timeout branch of _process_polling: a not-done job whose grown
waiting time exceeds the max wait time is removed with the
over-max-wait-time failure write. -/
theorem process_polling_timeout (c m k : Nat) (done : Nat → Nat → Bool)
    (status : Nat → Nat → String) (e : PollerEntry)
    (hd : done k e.id = false) (ht : m < e.waiting_time + c) :
    process_polling c m k done status e =
      (none, some ⟨e.id, "di-failed", "over-max-wait-time"⟩) := by
  simp [process_polling, hd, ht]

/-- A sweep over a registry that does not contain a given identity
produces no write for that identity. -/
theorem countP_sweepWrites_zero (c m k : Nat) (done : Nat → Nat → Bool)
    (status : Nat → Nat → String) (jobs : List PollerEntry) (i : Nat)
    (h : ∀ e ∈ jobs, e.id ≠ i) :
    (sweepWrites c m k done status jobs).countP (fun w => w.job == i) = 0 := by
  rw [List.countP_eq_zero]
  intro w hw
  obtain ⟨e, hmem, hjob⟩ := mem_sweepWrites_job c m k done status jobs w hw
  simpa [hjob] using h e hmem

/-- A sweep writes exactly one status update for a job that times out
during it, provided registry identities are distinct. -/
theorem countP_sweepWrites_timeout (c m k : Nat) (done : Nat → Nat → Bool)
    (status : Nat → Nat → String) (jobs : List PollerEntry) (e : PollerEntry)
    (hmem : e ∈ jobs) (hnd : (jobs.map PollerEntry.id).Nodup)
    (hd : done k e.id = false) (ht : m < e.waiting_time + c) :
    (sweepWrites c m k done status jobs).countP (fun w => w.job == e.id) = 1 := by
  induction jobs with
  | nil => cases hmem
  | cons hd2 tl ih =>
    rw [List.map_cons, List.nodup_cons] at hnd
    rcases List.mem_cons.mp hmem with heq | htl
    · subst heq
      have hfree : ∀ e2 ∈ tl, e2.id ≠ e.id := by
        intro e2 h2 hcontra
        exact hnd.1 (hcontra ▸ List.mem_map_of_mem PollerEntry.id h2)
      rw [sweepWrites, List.filterMap_cons,
        process_polling_timeout c m k done status e hd ht]
      simp only [List.countP_cons]
      rw [show (List.filterMap (fun e => (process_polling c m k done status e).2) tl) =
        sweepWrites c m k done status tl from rfl]
      rw [countP_sweepWrites_zero c m k done status tl e.id hfree]
      simp
    · have hne : hd2.id ≠ e.id := by
        intro hcontra
        exact hnd.1 (hcontra ▸ List.mem_map_of_mem PollerEntry.id htl)
      rw [sweepWrites, List.filterMap_cons]
      have htail := ih htl hnd.2
      cases hpp : (process_polling c m k done status hd2).2 with
      | none => simpa [sweepWrites] using htail
      | some w =>
        have hwj : w.job = hd2.id :=
          write_job_of_process_polling c m k done status hd2 w hpp
        simp only [List.countP_cons]
        rw [show (List.filterMap (fun e => (process_polling c m k done status e).2) tl) =
          sweepWrites c m k done status tl from rfl]
        rw [htail]
        simp [hwj, hne]

/-- Sweeping never introduces a registry identity. -/
theorem sweepJobs_id_free (c m k : Nat) (done : Nat → Nat → Bool)
    (status : Nat → Nat → String) (jobs : List PollerEntry) (i : Nat)
    (h : ∀ e ∈ jobs, e.id ≠ i) :
    ∀ e2 ∈ sweepJobs c m k done status jobs, e2.id ≠ i := by
  intro e2 h2
  obtain ⟨e, hmem, _, hid, _, _⟩ := mem_sweepJobs c m k done status jobs e2 h2
  rw [hid]
  exact h e hmem

/-- An identity absent from the registry stays absent through any number
of later sweeps, and no later sweep writes a status update for it. -/
theorem sweeps_id_free (c m : Nat) (done : Nat → Nat → Bool)
    (status : Nat → Nat → String) (i : Nat) : ∀ (t k : Nat) (jobs : List PollerEntry),
    (∀ e ∈ jobs, e.id ≠ i) →
    (∀ e2 ∈ sweeps c m done status t k jobs, e2.id ≠ i) ∧
      (∀ w ∈ sweepsWrites c m done status t k jobs, w.job ≠ i) := by
  intro t
  induction t with
  | zero =>
    intro k jobs h
    exact ⟨h, by simp [sweepsWrites]⟩
  | succ t ih =>
    intro k jobs h
    have hnext := sweepJobs_id_free c m k done status jobs i h
    constructor
    · rw [sweeps]
      exact (ih (k + 1) _ hnext).1
    · rw [sweepsWrites]
      intro w hw
      rcases List.mem_append.mp hw with hw1 | hw2
      · obtain ⟨e, hmem, hjob⟩ := mem_sweepWrites_job c m k done status jobs w hw1
        rw [hjob]
        exact h e hmem
      · exact (ih (k + 1) _ hnext).2 w hw2

end DocIntel

/-- C3: a registered job whose waiting time, after the poll-period
increment, exceeds the max wait time is removed from the registry
during that sweep and its unit marked di-failed with reason
over-max-wait-time by exactly one status write; and since sweeps never
re-add a removed identity, the job is never processed again in any
later sweep: it never reappears in the registry and no later sweep
writes any status for it. -/
theorem C3_timeout_removed_exactly_once (c m k : Nat) (done : Nat → Nat → Bool)
    (status : Nat → Nat → String) (jobs : List DocIntel.PollerEntry)
    (e : DocIntel.PollerEntry) (hmem : e ∈ jobs)
    (hnd : (jobs.map DocIntel.PollerEntry.id).Nodup)
    (hd : done k e.id = false) (ht : m < e.waiting_time + c) :
    (∀ e2 ∈ DocIntel.sweepJobs c m k done status jobs, e2.id ≠ e.id) ∧
    (⟨e.id, "di-failed", "over-max-wait-time"⟩ : DocIntel.RegistryWrite) ∈
      DocIntel.sweepWrites c m k done status jobs ∧
    (DocIntel.sweepWrites c m k done status jobs).countP
      (fun w => w.job == e.id) = 1 ∧
    (∀ t, (∀ e2 ∈ DocIntel.sweeps c m done status t (k + 1)
        (DocIntel.sweepJobs c m k done status jobs), e2.id ≠ e.id) ∧
      (∀ w ∈ DocIntel.sweepsWrites c m done status t (k + 1)
        (DocIntel.sweepJobs c m k done status jobs), w.job ≠ e.id)) := by
  have hinj : ∀ x ∈ jobs, ∀ y ∈ jobs, x.id = y.id → x = y := by
    intro x hx y hy hxy
    exact List.inj_on_of_nodup_map hnd hx hy hxy
  have hremoved : ∀ e2 ∈ DocIntel.sweepJobs c m k done status jobs, e2.id ≠ e.id := by
    intro e2 h2 hcontra
    obtain ⟨e0, hmem0, hd0, hid0, hwt0, hle0⟩ :=
      DocIntel.mem_sweepJobs c m k done status jobs e2 h2
    have : e0 = e := hinj e0 hmem0 e hmem (hid0 ▸ hcontra)
    subst this
    omega
  refine ⟨hremoved, ?_, ?_, ?_⟩
  · rw [DocIntel.sweepWrites, List.mem_filterMap]
    exact ⟨e, hmem, by
      rw [DocIntel.process_polling_timeout c m k done status e hd ht]⟩
  · exact DocIntel.countP_sweepWrites_timeout c m k done status jobs e hmem hnd hd ht
  · intro t
    exact DocIntel.sweeps_id_free c m done status e.id t (k + 1) _ hremoved

/-- Witness for C3: with poll period 5 and max wait 12, a job waiting 10
seconds times out on its next sweep, producing exactly one
over-max-wait-time failure write. -/
theorem C3_timeout_removed_exactly_once_witness :
    (⟨1, "di-failed", "over-max-wait-time"⟩ : DocIntel.RegistryWrite) ∈
      DocIntel.sweepWrites 5 12 0 (fun _ _ => false) (fun _ _ => "") [⟨1, 10⟩] ∧
    (DocIntel.sweepWrites 5 12 0 (fun _ _ => false) (fun _ _ => "")
      [⟨1, 10⟩]).countP (fun w => w.job == 1) = 1 := by
  obtain ⟨h1, h2, h3, h4⟩ := C3_timeout_removed_exactly_once 5 12 0
    (fun _ _ => false) (fun _ _ => "") [⟨1, 10⟩] ⟨1, 10⟩ (by simp)
    (by simp) rfl (by decide)
  exact ⟨h2, h3⟩

/-- C7: for any finite registry and any behaviour of the remote jobs,
the poll loop terminates with an empty registry within
ceil(maxWaitTime / pollPeriod) + 1 sweeps, because every sweep either
removes a terminal job or grows its waiting time by the poll period and
removes it once the waiting time exceeds the max; only then is the
all-jobs-completed notification emitted, and the notification is never
emitted with a non-empty registry. -/
theorem C7_listen_jobs_drains_registry (c m fuel : Nat)
    (done : Nat → Nat → Bool) (status : Nat → Nat → String)
    (jobs : List DocIntel.PollerEntry)
    (hc : 0 < c) (hfuel : (m + c - 1) / c + 1 ≤ fuel) :
    ((DocIntel.listen_jobs c m done status fuel 0 jobs []).1 = [] ∧
      (DocIntel.listen_jobs c m done status fuel 0 jobs []).2.2 = true) ∧
    (∀ (fuel2 k : Nat) (jobs2 : List DocIntel.PollerEntry)
      (ws : List DocIntel.RegistryWrite),
      (DocIntel.listen_jobs c m done status fuel2 k jobs2 ws).2.2 = true →
      (DocIntel.listen_jobs c m done status fuel2 k jobs2 ws).1 = []) := by
  constructor
  · have hdiv : m < (m / c + 1) * c := by
      have h1 := Nat.div_add_mod m c
      have h2 := Nat.mod_lt m hc
      nlinarith [Nat.div_add_mod m c]
    have hmono : m / c ≤ (m + c - 1) / c := Nat.div_le_div_right (by omega)
    revert hfuel
    generalize (m + c - 1) / c = q at hmono
    intro hfuel
    obtain ⟨t, rfl⟩ : ∃ t, fuel = t + 1 := ⟨fuel - 1, by omega⟩
    apply DocIntel.listen_drains
    intro e _
    have hle : (m / c + 1) * c ≤ (t + 1) * c := by
      gcongr
      omega
    omega
  · intro fuel2 k jobs2 ws h
    exact DocIntel.listen_notify_only_if_empty c m done status fuel2 k jobs2 ws h

/-- Witness for C7: with poll period 5, max wait 12 and a job that never
completes, 4 sweeps of fuel drain the registry and the loop notifies. -/
theorem C7_listen_jobs_drains_registry_witness :
    ((DocIntel.listen_jobs 5 12 (fun _ _ => false) (fun _ _ => "") 4 0
      [⟨1, 0⟩] []).1 = [] ∧
    (DocIntel.listen_jobs 5 12 (fun _ _ => false) (fun _ _ => "") 4 0
      [⟨1, 0⟩] []).2.2 = true) := by
  exact (C7_listen_jobs_drains_registry 5 12 4 (fun _ _ => false) (fun _ _ => "")
    [⟨1, 0⟩] (by decide) (by decide)).1

namespace FileProcess

/-- Per-file decoration applied by merge_bundle
(app/utils/file_process.py line 45): two hash marks, the file content,
then a blank-line separated horizontal rule. -/
def decorate (content : List Char) : List Char :=
  ('#' :: '#' :: content) ++ "\n\n---\n\n".data

/-- Python endswith for the markdown suffix (file_process.py line 32). -/
def endsWithMd (name : List Char) : Bool := List.isSuffixOf ".md".data name

/-- CPython sorted on strings: ascending lexicographic comparison of
code points, which the lexicographic order on List Char mirrors.  An
ascending rearrangement of a multiset over a linear order is unique, so
insertion sort is an exact model of the library sort. -/
def pySorted (l : List (List Char)) : List (List Char) :=
  List.insertionSort (· ≤ ·) l

/-- Embedding of FileProcessClass.merge_bundle (file_process.py
lines 27-60): list the bundle directory, keep the .md files, sort them
by filename string order, and concatenate their decorated contents;
raise FileNotFoundError when no markdown file exists.  The directory is
a listing of filenames plus a content map keyed by filename. -/
def merge_bundle (listing : List (List Char)) (content : List Char → List Char) :
    Except String (List Char) :=
  let md_files := pySorted (listing.filter endsWithMd)
  if md_files.isEmpty then Except.error "FileNotFoundError"
  else Except.ok (List.flatten (md_files.map (fun f => decorate (content f))))

/-- Definition following the spec's words, for comparison with
merge_bundle: concatenate the pages sorted by absolute page number
ascending, with the same per-page decoration. -/
def merge_bundle_by_page_number (pages : List (Nat × List Char)) : List Char :=
  List.flatten ((List.insertionSort (fun a b => a.1 ≤ b.1) pages).map
    (fun p => decorate p.2))

/-- Contents of the bundle directory in the counterexample: page 2 holds
the text A and page 10 the text B. -/
def exampleContent (name : List Char) : List Char :=
  if name = "2.md".data then "A".data else "B".data

end FileProcess

namespace Chunking

/-- A Page row as read by the chunker: its database identity and its
absolute page number. -/
structure PageRec where
  id : Nat
  page_number : Nat
deriving DecidableEq

/-- Embedding of ChunkGenerator._get_sorted_pages
(src/doc2rag/chunking.py lines 92-93): sort the split file's pages by
absolute page number ascending. -/
def get_sorted_pages (pages : List PageRec) : List PageRec :=
  List.insertionSort (fun p q => p.page_number ≤ q.page_number) pages

/-- Embedding of ChunkGenerator._get_full_text (chunking.py lines 69-73)
after the sort in _get_chunks (lines 55-58): concatenate the bundle
markdown of each page in sorted page order. -/
def get_full_text (pages : List PageRec) (bundle_md : Nat → List Char) : List Char :=
  List.flatten ((get_sorted_pages pages).map (fun p => bundle_md p.page_number))

end Chunking

/-- Sorting filenames is invariant under permutations of the listing. -/
theorem pySorted_eq_of_perm (l₁ l₂ : List (List Char)) (h : l₁.Perm l₂) :
    FileProcess.pySorted l₁ = FileProcess.pySorted l₂ := by
  have h₁ : (FileProcess.pySorted l₁).Perm (FileProcess.pySorted l₂) :=
    ((List.perm_insertionSort _ l₁).trans h).trans
      (List.perm_insertionSort _ l₂).symm
  exact List.eq_of_perm_of_sorted h₁
    (List.sorted_insertionSort _ l₁) (List.sorted_insertionSort _ l₂)

/-- Two permuted lists of pages with distinct page numbers that are both
sorted by page number coincide. -/
theorem eq_of_perm_sorted_nodup_keys :
    ∀ (l₁ l₂ : List Chunking.PageRec), l₁.Perm l₂ →
    List.Sorted (fun p q => p.page_number ≤ q.page_number) l₁ →
    List.Sorted (fun p q => p.page_number ≤ q.page_number) l₂ →
    (l₁.map Chunking.PageRec.page_number).Nodup → l₁ = l₂ := by
  intro l₁
  induction l₁ with
  | nil =>
    intro l₂ hperm _ _ _
    exact List.Perm.nil_eq hperm
  | cons a t₁ ih =>
    intro l₂ hperm hs₁ hs₂ hnd
    cases l₂ with
    | nil => exact absurd hperm.symm (by simp)
    | cons b t₂ =>
      rw [List.sorted_cons] at hs₁ hs₂
      rw [List.map_cons, List.nodup_cons] at hnd
      by_cases hab : a = b
      · subst hab
        have := ih t₂ hperm.cons_inv hs₁.2 hs₂.2 hnd.2
        rw [this]
      · have hbmem : b ∈ t₁ := by
          have : b ∈ a :: t₁ := hperm.symm.subset (List.mem_cons_self b t₂)
          rcases List.mem_cons.mp this with h | h
          · exact absurd h.symm hab
          · exact h
        have hamem : a ∈ t₂ := by
          have : a ∈ b :: t₂ := hperm.subset (List.mem_cons_self a t₁)
          rcases List.mem_cons.mp this with h | h
          · exact absurd h hab
          · exact h
        have h1 : a.page_number ≤ b.page_number := hs₁.1 b hbmem
        have h2 : b.page_number ≤ a.page_number := hs₂.1 a hamem
        have heq : b.page_number = a.page_number := le_antisymm h2 h1
        exact absurd (heq ▸ List.mem_map_of_mem Chunking.PageRec.page_number hbmem)
          (by simpa using hnd.1)

/-- C4 counterexample: merge_bundle does not concatenate pages by
ascending absolute page number.  With stored pages 2 and 10,
lexicographic filename order puts 10.md before 2.md, so the produced
body differs from the page-ascending concatenation the claim
describes. -/
theorem C4_counterexample_lexicographic_order :
    FileProcess.merge_bundle ["2.md".data, "10.md".data]
        FileProcess.exampleContent =
      Except.ok (FileProcess.decorate "B".data ++ FileProcess.decorate "A".data) ∧
    FileProcess.merge_bundle_by_page_number [(2, "A".data), (10, "B".data)] =
      FileProcess.decorate "A".data ++ FileProcess.decorate "B".data ∧
    FileProcess.decorate "B".data ++ FileProcess.decorate "A".data ≠
      FileProcess.decorate "A".data ++ FileProcess.decorate "B".data := by
  refine ⟨rfl, rfl, by decide⟩

/-- C4 as amended: merging is deterministic — the bundle body is
invariant under any permutation of the directory listing, because the
kept .md files are sorted by filename before concatenation — but that
order is lexicographic on the filename string, not numeric page order
(they differ once page numbers of different digit lengths coexist,
witness the counterexample).  The chunker, by contrast, does sort pages
by absolute page number ascending, and its concatenated text is
invariant under any permutation of the stored pages when page numbers
are distinct. -/
theorem C4_bundle_deterministic_chunker_page_order
    (l₁ l₂ : List (List Char)) (content : List Char → List Char)
    (hperm : l₁.Perm l₂) (pages₁ pages₂ : List Chunking.PageRec)
    (bundle_md : Nat → List Char) (hp : pages₁.Perm pages₂)
    (hnd : (pages₁.map Chunking.PageRec.page_number).Nodup) :
    FileProcess.merge_bundle l₁ content = FileProcess.merge_bundle l₂ content ∧
    List.Sorted (fun p q => p.page_number ≤ q.page_number)
      (Chunking.get_sorted_pages pages₁) ∧
    (Chunking.get_sorted_pages pages₁).Perm pages₁ ∧
    Chunking.get_sorted_pages pages₁ = Chunking.get_sorted_pages pages₂ ∧
    Chunking.get_full_text pages₁ bundle_md =
      Chunking.get_full_text pages₂ bundle_md := by
  haveI htot : IsTotal Chunking.PageRec (fun p q => p.page_number ≤ q.page_number) :=
    ⟨fun a b => Nat.le_total a.page_number b.page_number⟩
  haveI htr : IsTrans Chunking.PageRec (fun p q => p.page_number ≤ q.page_number) :=
    ⟨fun a b c hab hbc => le_trans hab hbc⟩
  have hsort : FileProcess.pySorted (l₁.filter FileProcess.endsWithMd) =
      FileProcess.pySorted (l₂.filter FileProcess.endsWithMd) :=
    pySorted_eq_of_perm _ _ (hperm.filter FileProcess.endsWithMd)
  have hsorted₁ := List.sorted_insertionSort
    (fun p q : Chunking.PageRec => p.page_number ≤ q.page_number) pages₁
  have hsorted₂ := List.sorted_insertionSort
    (fun p q : Chunking.PageRec => p.page_number ≤ q.page_number) pages₂
  have hperm₁ := List.perm_insertionSort
    (fun p q : Chunking.PageRec => p.page_number ≤ q.page_number) pages₁
  have hperm₂ := List.perm_insertionSort
    (fun p q : Chunking.PageRec => p.page_number ≤ q.page_number) pages₂
  have hkey : Chunking.get_sorted_pages pages₁ = Chunking.get_sorted_pages pages₂ := by
    apply eq_of_perm_sorted_nodup_keys
    · exact (hperm₁.trans hp).trans hperm₂.symm
    · exact hsorted₁
    · exact hsorted₂
    · exact (hperm₁.map Chunking.PageRec.page_number).nodup_iff.mpr hnd
  refine ⟨?_, hsorted₁, hperm₁, hkey, ?_⟩
  · rw [FileProcess.merge_bundle, FileProcess.merge_bundle, hsort]
  · rw [Chunking.get_full_text, Chunking.get_full_text, hkey]

/-- Witness for the amended C4: swapping the listing order of the two
stored files leaves the merged body unchanged, and swapping the stored
order of two pages leaves the chunker's concatenated text unchanged. -/
theorem C4_bundle_deterministic_chunker_page_order_witness :
    FileProcess.merge_bundle ["2.md".data, "10.md".data]
        FileProcess.exampleContent =
      FileProcess.merge_bundle ["10.md".data, "2.md".data]
        FileProcess.exampleContent ∧
    Chunking.get_full_text [⟨1, 2⟩, ⟨2, 1⟩]
        (fun n => if n = 1 then "x".data else "y".data) =
      Chunking.get_full_text [⟨2, 1⟩, ⟨1, 2⟩]
        (fun n => if n = 1 then "x".data else "y".data) := by
  have h := C4_bundle_deterministic_chunker_page_order
    ["2.md".data, "10.md".data] ["10.md".data, "2.md".data]
    FileProcess.exampleContent (List.Perm.swap "10.md".data "2.md".data [])
    [⟨1, 2⟩, ⟨2, 1⟩] [⟨2, 1⟩, ⟨1, 2⟩]
    (fun n => if n = 1 then "x".data else "y".data)
    (List.Perm.swap (⟨2, 1⟩ : Chunking.PageRec) (⟨1, 2⟩ : Chunking.PageRec) []) (by decide)
  exact ⟨h.1, h.2.2.2.2⟩

namespace Figure

/-- The fixed description stored by the enrichment loop when generating
a description fails (app/doc_intel/preprocessing/figure.py line 46). -/
def errorDescription : String := "Error: Failed to generate description."

/-- One iteration of FigureDescriptionGenerator.generate (figure.py
lines 33-48) for a figure fetched with a null description: the argument
is the outcome of the external enrichment call (_generate_description,
which raises on any service failure), the result is the description
value saved on the Figure row by _save_description.  The success path
stores the generated description; the except branch stores the fixed
error string. -/
def process_figure (enrichment : Except String String) : Option String :=
  match enrichment with
  | Except.ok description => some description
  | Except.error _ => some errorDescription

end Figure

/-- C9 counterexample: after a failed enrichment call the Figure's
description is not left null — the handler stores the fixed non-null
string Error: Failed to generate description. -/
theorem C9_counterexample_error_string_stored :
    Figure.process_figure (Except.error "ServiceError") =
      some Figure.errorDescription ∧
    some Figure.errorDescription ≠ (none : Option String) := by
  exact ⟨rfl, by decide⟩

/-- C9 as amended: every processed figure ends with a non-null
description — the generated one when enrichment succeeds, and the fixed
error string Error: Failed to generate description. when the enrichment
call fails; a null description survives only on figures the loop never
processed. -/
theorem C9_description_always_written (enrichment : Except String String) :
    Figure.process_figure enrichment ≠ none ∧
    (∀ d, enrichment = Except.ok d → Figure.process_figure enrichment = some d) ∧
    (∀ e, enrichment = Except.error e →
      Figure.process_figure enrichment = some Figure.errorDescription) := by
  refine ⟨?_, ?_, ?_⟩
  · cases enrichment <;> simp [Figure.process_figure]
  · intro d h
    subst h
    rfl
  · intro e h
    subst h
    rfl

/-- Witness for the amended C9: a successful call stores the returned
text, a failing call stores the fixed error string. -/
theorem C9_description_always_written_witness :
    Figure.process_figure (Except.ok "a chart") = some "a chart" ∧
    Figure.process_figure (Except.error "boom") =
      some Figure.errorDescription := by
  exact ⟨(C9_description_always_written (Except.ok "a chart")).2.1 "a chart" rfl,
    (C9_description_always_written (Except.error "boom")).2.2 "boom" rfl⟩
